import Mathlib

/-!
Verification of the flappy-goose-utilities conversion engine.

The development embeds the two converters of the repository as Lean
functions over exact rational arithmetic:

* the Melody Reducer of the MIDI converter (function `generateLevel` of
  the MIDI component): sorting by onset, grouping onsets by the
  1-millisecond key produced by rounding the time to three decimals,
  picking the highest pitch per group, and turning inter-onset gaps into
  block positions and bounce factors;
* the Raster Mapper of the image converter (function `generateJson` of
  the image component): the row-major scan over the pixel grid, the
  alpha-zero skip, the hex color formatting, and the fixed document
  fields.

JavaScript numbers are modelled as rationals; `toFixed(2)` /
`toFixed(3)` rounding is modelled by `round2` / `timeKey` below, and
`Math.ceil` by `ceilQ`.
-/

set_option maxRecDepth 8000

attribute [local semireducible] Rat.add Rat.mul Rat.inv Rat.sub Rat.ofScientific

/-! ## Numeric helpers -/

/-- Computable floor of a rational (agrees with `Int.floor`). -/
def floorQ (q : ℚ) : ℤ := q.num / q.den

/-- Computable ceiling of a rational, models JavaScript `Math.ceil`. -/
def ceilQ (q : ℚ) : ℤ := -floorQ (-q)

/-- Computable round-half-up, models the rounding of JavaScript `toFixed`. -/
def roundQ (q : ℚ) : ℤ := floorQ (q + 1 / 2)

/-- Models `parseFloat(v.toFixed(2))`: rounding to two decimal digits. -/
def round2 (q : ℚ) : ℚ := (roundQ (q * 100) : ℚ) / 100

/-! ## Data model: notes and tracks (owned by the external MIDI decoder) -/

/-- One note event as exposed by the decoder: pitch name, numeric pitch,
onset time in seconds, duration in seconds. -/
structure NoteEvent where
  name : String
  midi : ℤ
  time : ℚ
  duration : ℚ
deriving DecidableEq

/-- A track: display label plus its ordered note events. -/
structure Track where
  label : String
  notes : List NoteEvent
deriving DecidableEq

/-! ## Melody Reducer (MIDI component, `generateLevel` lines 75-101) -/

/-- The grouping key of a note: `note.time.toFixed(3)`, i.e. the onset
rounded to the millisecond, kept as an integer number of milliseconds. -/
def timeKey (n : NoteEvent) : ℤ := roundQ (n.time * 1000)

/-- Stable insertion of a note into a time-sorted list (equal onsets keep
their existing order, matching the stable JavaScript sort). -/
def insertByTime (n : NoteEvent) : List NoteEvent → List NoteEvent
  | [] => [n]
  | m :: ms => if n.time < m.time then n :: m :: ms else m :: insertByTime n ms

/-- Models `[...track.notes].sort((a, b) => a.time - b.time)`, the stable
sort of the notes by onset time. -/
def sortByTime (notes : List NoteEvent) : List NoteEvent :=
  notes.foldl (fun acc n => insertByTime n acc) []

/-- The bucket of key `k`: the sorted notes whose rounded onset is `k`, in
scan order (models `notesByTime.get(timeKey)`). -/
def bucketOf (notes : List NoteEvent) (k : ℤ) : List NoteEvent :=
  (sortByTime notes).filter (fun n => decide (timeKey n = k))

/-- One step of `notes.reduce((prev, current) => current.midi > prev.midi ?
current : prev)`. -/
def pickHigher (prev cur : NoteEvent) : NoteEvent :=
  if cur.midi > prev.midi then cur else prev

/-- The note selected from a bucket: the reduce scan keeping the first note
whose pitch is not exceeded. -/
def bestNote : List NoteEvent → Option NoteEvent
  | [] => none
  | n :: rest => some (rest.foldl pickHigher n)

/-- Sorted insertion of a key (the keys are pairwise distinct, so
stability is irrelevant here). -/
def insertKey (k : ℤ) : List ℤ → List ℤ
  | [] => [k]
  | j :: js => if k < j then k :: j :: js else j :: insertKey k js

/-- Models `uniqueTimes.sort((a, b) => parseFloat(a) - parseFloat(b))`. -/
def sortKeys : List ℤ → List ℤ
  | [] => []
  | k :: ks => insertKey k (sortKeys ks)

/-- The distinct bucket keys in ascending time order. -/
def uniqueTimesOf (notes : List NoteEvent) : List ℤ :=
  sortKeys (((sortByTime notes).map timeKey).dedup)

/-- The monophonic melody: one note per onset bucket, in time order
(models the `melodyNotes` array of the MIDI component). -/
def melodyNotes (notes : List NoteEvent) : List NoteEvent :=
  (uniqueTimesOf notes).filterMap (fun k => bestNote (bucketOf notes k))

/-! ## Placement objects and the music block loop -/

/-- A placement object of the level document: the discriminated objects
pushed onto `genericObjects` by either converter. -/
inductive GenObj where
  | musicBlock (x y : ℚ) (musicalNote instrumentType : String) (bF s : ℚ)
  | tinyMushroom (x y sF : ℚ)
  | colorBlock (x y : ℚ) (color : String) (s : ℚ)
deriving DecidableEq

/-- The x coordinate of a placement object. -/
def GenObj.xPos : GenObj → ℚ
  | musicBlock x _ _ _ _ _ => x
  | tinyMushroom x _ _ => x
  | colorBlock x _ _ _ => x

/-- The y coordinate of a placement object. -/
def GenObj.yPos : GenObj → ℚ
  | musicBlock _ y _ _ _ _ => y
  | tinyMushroom _ y _ => y
  | colorBlock _ y _ _ => y

/-- Configuration surface of the MIDI converter. -/
structure MusicCfg where
  instrumentType : String
  startX : ℚ
  startY : ℚ
  baseBf : ℚ
  baseSpacing : ℚ
  blockScale : ℚ
deriving DecidableEq

/-- The block generation loop of the MIDI component (`generateLevel`
lines 112-151): emits one music block per melody note and advances the x
cursor by `baseSpacing * (durationToNext / secondsPerQuarter)`; returns
the block list together with the final cursor value. -/
def musicLoop (cfg : MusicCfg) (spq : ℚ) : List NoteEvent → ℚ → List GenObj × ℚ
  | [], curX => ([], curX)
  | note :: rest, curX =>
    let durToNext : ℚ :=
      match rest with
      | next :: _ => next.time - note.time
      | [] => note.duration
    let rq := durToNext / spq
    let res := musicLoop cfg spq rest (curX + cfg.baseSpacing * rq)
    (GenObj.musicBlock (round2 curX) cfg.startY note.name cfg.instrumentType
        (round2 (cfg.baseBf * rq)) cfg.blockScale :: res.1, res.2)

/-- Models `midiData.header.tempos[0]?.bpm || 120` (note the JavaScript
falsy check: a declared tempo of 0 also falls back to 120). -/
def bpmOf (tempos : List ℚ) : ℚ :=
  match tempos.head? with
  | some b => if b = 0 then 120 else b
  | none => 120

/-- Models `fileName.replace(/\.[^/.]+$/, "")`: strips a final dot
extension whose text contains neither a slash nor another dot. -/
def stripExt (s : String) : String :=
  let rev := s.data.reverse
  let ext := rev.takeWhile (fun c => decide (c ≠ '.') && decide (c ≠ '/'))
  match rev.drop ext.length with
  | '.' :: restRev => if ext.isEmpty then s else String.mk restRev.reverse
  | _ => s

/-! ## Level documents -/

/-- The level document assembled by the MIDI converter (`levelData`,
lines 160-189 of the MIDI component). -/
structure MusicLevel where
  name : String
  description : String
  version : ℚ
  scrollSpeed : ℚ
  gravity : ℚ
  antigravity : Bool
  yTrack : Bool
  gradientTopColor : String
  gradientBottomColor : String
  disableBackgroundMusic : Bool
  restartOnDeath : Bool
  volume : ℚ
  birdStartX : ℚ
  birdStartY : ℚ
  pipes : List Unit
  bullets : List Unit
  bulletTriggers : List Unit
  currentLayer : ℕ
  maxLayers : ℕ
  genericObjects : List GenObj
  finishLineX : ℤ
  completionRequirement : String
deriving DecidableEq

/-- Conversion failure: the selected track is missing or has no notes
(the component reports "Selected track has no notes." and aborts). -/
inductive ConvError where
  | emptyTrack
deriving DecidableEq

/-- Models `fileName ? fileName.replace(...) : "My Custom Level"`. -/
def levelName (fileName : Option String) : String :=
  match fileName with
  | some s => stripExt s
  | none => "My Custom Level"

/-- The full MIDI conversion (`generateLevel` of the MIDI component):
selects the track, reduces it to a melody, runs the block loop, appends
the decorative mushroom and assembles the document. -/
def generateLevel (cfg : MusicCfg) (tempos : List ℚ) (fileName : Option String)
    (tracks : List Track) (idx : ℕ) : Except ConvError MusicLevel :=
  match tracks[idx]? with
  | none => .error .emptyTrack
  | some track =>
    if track.notes = [] then .error .emptyTrack
    else
      let melody := melodyNotes track.notes
      let spq := 60 / bpmOf tempos
      let res := musicLoop cfg spq melody cfg.startX
      .ok
        { name := levelName fileName
          description := "Generated from MIDI"
          version := 1.702
          scrollSpeed := 2.4
          gravity := 0.4
          antigravity := false
          yTrack := true
          gradientTopColor := "#009dff"
          gradientBottomColor := "#c2ccff"
          disableBackgroundMusic := false
          restartOnDeath := false
          volume := 100
          birdStartX := 100
          birdStartY := 300
          pipes := []
          bullets := []
          bulletTriggers := []
          currentLayer := 1
          maxLayers := 3
          genericObjects := res.1 ++ [GenObj.tinyMushroom 114 298 1]
          finishLineX := ceilQ (res.2 + 200)
          completionRequirement := "crossFinishLine" }

/-! ## Raster Mapper (image component, `generateJson` lines 59-147) -/

/-- One RGBA sample of the decoded raster. -/
structure RGBA where
  r : ℕ
  g : ℕ
  b : ℕ
  a : ℕ
deriving DecidableEq

/-- Configuration surface of the image converter that reaches the scan. -/
structure ImageCfg where
  sValue : ℚ
  offsetX : ℚ
  offsetY : ℚ
deriving DecidableEq

/-- Models `Math.abs(4 * (sValue / -0.1))`. -/
def pixelSpacing (s : ℚ) : ℚ := |4 * (s / (-(1 / 10)))|

/-- The lowercase hexadecimal digit of a value below 16. -/
def hexDigitChar (n : ℕ) : Char :=
  if n < 10 then Char.ofNat (48 + n) else Char.ofNat (87 + n)

/-- Models `v.toString(16).padStart(2, '0')` for a byte value. -/
def hex2 (n : ℕ) : String :=
  if n < 16 then String.mk ['0', hexDigitChar n]
  else String.mk [hexDigitChar (n / 16), hexDigitChar (n % 16)]

/-- The color string pushed for a pixel. -/
def hexColor (r g b : ℕ) : String := "#" ++ hex2 r ++ hex2 g ++ hex2 b

/-- The row-major raster scan (y outer, x inner): fully transparent
samples are skipped, every other sample becomes one color block. -/
def imageObjects (cfg : ImageCfg) (width height : ℕ) (pix : ℕ → ℕ → RGBA) :
    List GenObj :=
  (List.range height).flatMap fun y =>
    (List.range width).filterMap fun x =>
      let p := pix x y
      if p.a = 0 then none
      else
        some (GenObj.colorBlock (cfg.offsetX + x * pixelSpacing cfg.sValue)
          (cfg.offsetY + y * pixelSpacing cfg.sValue)
          (hexColor p.r p.g p.b) cfg.sValue)

/-- The level document assembled by the image converter (`level`, lines
106-139 of the image component); it carries four fields the MIDI document
does not have. -/
structure ImageLevel where
  name : String
  description : String
  version : ℚ
  scrollSpeed : ℚ
  gravity : ℚ
  antigravity : Bool
  yTrack : Bool
  gradientTopColor : String
  gradientBottomColor : String
  disableBackgroundMusic : Bool
  restartOnDeath : Bool
  volume : ℚ
  birdStartX : ℚ
  birdStartY : ℚ
  pipes : List Unit
  bullets : List Unit
  bulletTriggers : List Unit
  currentLayer : ℕ
  maxLayers : ℕ
  genericObjects : List GenObj
  finishLineX : ℤ
  completionRequirement : String
  propelFlap : Bool
  propelFlapForceX : ℚ
  propelFlapForceY : ℚ
  floor : Bool
deriving DecidableEq

/-- The full image conversion (`generateJson` of the image component):
scans the decoded (and possibly resampled) grid and assembles the
document around the resulting color blocks. -/
def generateJson (cfg : ImageCfg) (width height : ℕ) (pix : ℕ → ℕ → RGBA) :
    ImageLevel :=
  { name := "My Custom Level"
    description := ""
    version := 1.702
    scrollSpeed := 2.4
    gravity := 0.4
    antigravity := false
    yTrack := false
    gradientTopColor := "#009dff"
    gradientBottomColor := "#c2ccff"
    disableBackgroundMusic := false
    restartOnDeath := false
    volume := 100
    birdStartX := 100
    birdStartY := 300
    pipes := []
    bullets := []
    bulletTriggers := []
    currentLayer := 1
    maxLayers := 3
    genericObjects := imageObjects cfg width height pix
    finishLineX := 1559
    completionRequirement := "crossFinishLine"
    propelFlap := false
    propelFlapForceX := 8
    propelFlapForceY := -8
    floor := false }

deriving instance DecidableEq for Except

/-! ## Auxiliary definitions used by the statements -/

/-- The largest x coordinate over a list of placement objects (0 for the
empty list); used to compare the document finish line against the
rightmost object. -/
def maxXOf (objs : List GenObj) : ℚ := (objs.map GenObj.xPos).foldl max 0

/-- The per-note quarter-note ratios exactly as the specification words
them: gap to the next onset while a next note exists, own duration for
the final note, divided by the seconds per quarter note. -/
def ratiosOf (spq : ℚ) : List NoteEvent → List ℚ
  | [] => []
  | [n] => [n.duration / spq]
  | n :: next :: rest => (next.time - n.time) / spq :: ratiosOf spq (next :: rest)

/-- The final x cursor as the specification describes it: the start x
plus the accumulated horizontal advances `base_spacing * ratio`. -/
def specFinalX (cfg : MusicCfg) (spq : ℚ) (notes : List NoteEvent) : ℚ :=
  cfg.startX + cfg.baseSpacing * (ratiosOf spq notes).sum

/-- Recognizer for lowercase hexadecimal digits. -/
def isLowerHexDigit (c : Char) : Bool := "0123456789abcdef".data.contains c

/-- Recognizer for the mushroom marker object. -/
def GenObj.isMushroom : GenObj → Bool
  | tinyMushroom _ _ _ => true
  | _ => false

/-- Recognizer for color blocks. -/
def GenObj.isColorBlock : GenObj → Bool
  | colorBlock _ _ _ _ => true
  | _ => false

/-- Recognizer for music blocks. -/
def GenObj.isMusicBlock : GenObj → Bool
  | musicBlock _ _ _ _ _ _ => true
  | _ => false

/-! ## Concrete inputs used by witnesses and counterexamples -/

/-- The reference calibration of the MIDI converter (its default form
state): piano, start (191, 331), base bounce 5.94, base spacing 63.44,
block scale 0.5. -/
def cfgEx : MusicCfg :=
  { instrumentType := "piano", startX := 191, startY := 331,
    baseBf := 5.94, baseSpacing := 63.44, blockScale := 0.5 }

/-- A note at onset 0 s, duration 0.5 s. -/
def n1Ex : NoteEvent := { name := "C4", midi := 60, time := 0, duration := 0.5 }

/-- A note at onset 0.5 s, duration 0.5 s. -/
def n2Ex : NoteEvent := { name := "D4", midi := 62, time := 0.5, duration := 0.5 }

/-- A chord companion of `n1Ex`: same onset, higher pitch. -/
def n3Ex : NoteEvent := { name := "E4", midi := 64, time := 0, duration := 1 }

/-- The two-note track of the end-to-end example of the specification. -/
def trackEx : Track := { label := "t", notes := [n1Ex, n2Ex] }

/-- A track holding a chord at onset 0 plus a later note. -/
def trackChordEx : Track := { label := "c", notes := [n1Ex, n3Ex, n2Ex] }

/-- A fully opaque red raster. -/
def pixEx : ℕ → ℕ → RGBA := fun _ _ => { r := 255, g := 0, b := 0, a := 255 }

/-- A raster sharing colors with `pixEx` but with a different positive
alpha everywhere. -/
def pixEx2 : ℕ → ℕ → RGBA := fun _ _ => { r := 255, g := 0, b := 0, a := 7 }

/-- The default image configuration (block scale -0.1, start (200, 300)). -/
def icfgEx : ImageCfg := { sValue := -(1 / 10), offsetX := 200, offsetY := 300 }

/-- An image configuration whose typed-in start x has three decimals. -/
def icfgFineEx : ImageCfg := { sValue := -(1 / 10), offsetX := 200.005, offsetY := 300 }

/-- A track with no notes. -/
def emptyTrackEx : Track := { label := "e", notes := [] }

/-- A placeholder document used only to totalize `docOf`. -/
def fallbackLevel : MusicLevel :=
  { name := "", description := "", version := 0, scrollSpeed := 0, gravity := 0,
    antigravity := false, yTrack := false, gradientTopColor := "",
    gradientBottomColor := "", disableBackgroundMusic := false,
    restartOnDeath := false, volume := 0, birdStartX := 0, birdStartY := 0,
    pipes := [], bullets := [], bulletTriggers := [], currentLayer := 0,
    maxLayers := 0, genericObjects := [], finishLineX := 0,
    completionRequirement := "" }

/-- The document of a successful conversion. -/
def docOf (e : Except ConvError MusicLevel) : MusicLevel :=
  match e with
  | .ok d => d
  | .error _ => fallbackLevel

/-- The document produced for the two-note example track. -/
def musicDocEx : MusicLevel := docOf (generateLevel cfgEx [120] none [trackEx] 0)

/-! # Theorems -/

/-! ## Numeric bridge lemmas -/

theorem floorQ_eq (q : ℚ) : floorQ q = ⌊q⌋ := Rat.floor_def.symm

theorem ceilQ_eq (q : ℚ) : ceilQ q = ⌈q⌉ := by
  rw [ceilQ, floorQ_eq, Int.floor_neg, neg_neg]

theorem roundQ_eq (q : ℚ) : roundQ q = round q := by
  rw [roundQ, floorQ_eq, round_eq]

/-! ## General list helpers -/

theorem length_filterMap_of_isSome {α β : Type} (f : α → Option β) :
    ∀ l : List α, (∀ a ∈ l, (f a).isSome) → (l.filterMap f).length = l.length := by
  intro l
  induction l with
  | nil => intro _; rfl
  | cons a t ih =>
    intro h
    rw [List.filterMap_cons]
    have ha := h a (List.mem_cons_self a t)
    cases hfa : f a with
    | none => rw [hfa] at ha; cases ha
    | some b => simp [ih (fun x hx => h x (List.mem_cons_of_mem a hx))]

theorem flatMap_congrOn {α β : Type} {l : List α} {f g : α → List β}
    (h : ∀ a ∈ l, f a = g a) : l.flatMap f = l.flatMap g := by
  induction l with
  | nil => rfl
  | cons a t ih =>
    simp only [List.flatMap_cons]
    rw [h a (List.mem_cons_self a t), ih (fun x hx => h x (List.mem_cons_of_mem a hx))]

theorem filterMap_congrOn {α β : Type} {l : List α} {f g : α → Option β}
    (h : ∀ a ∈ l, f a = g a) : l.filterMap f = l.filterMap g := by
  induction l with
  | nil => rfl
  | cons a t ih =>
    rw [List.filterMap_cons, List.filterMap_cons,
      h a (List.mem_cons_self a t), ih (fun x hx => h x (List.mem_cons_of_mem a hx))]

/-! ## The reduce scan picking the highest pitch -/

theorem pickHigher_midi_le (t : List NoteEvent) (a : NoteEvent) :
    a.midi ≤ (t.foldl pickHigher a).midi := by
  induction t generalizing a with
  | nil => exact le_refl _
  | cons b t ih =>
    simp only [List.foldl_cons]
    refine le_trans ?_ (ih (pickHigher a b))
    unfold pickHigher
    split <;> omega

theorem pickHigher_max (t : List NoteEvent) (a : NoteEvent) :
    ∀ x ∈ t, x.midi ≤ (t.foldl pickHigher a).midi := by
  induction t generalizing a with
  | nil => intro x hx; cases hx
  | cons b t ih =>
    intro x hx
    simp only [List.foldl_cons]
    rcases List.mem_cons.mp hx with rfl | hx
    · refine le_trans ?_ (pickHigher_midi_le t (pickHigher a x))
      unfold pickHigher
      split <;> omega
    · exact ih (pickHigher a b) x hx

theorem pickHigher_mem (t : List NoteEvent) (a : NoteEvent) :
    t.foldl pickHigher a = a ∨ t.foldl pickHigher a ∈ t := by
  induction t generalizing a with
  | nil => exact Or.inl rfl
  | cons b t ih =>
    simp only [List.foldl_cons]
    rcases ih (pickHigher a b) with h | h
    · rw [h]
      unfold pickHigher
      split
      · exact Or.inr (List.mem_cons_self b t)
      · exact Or.inl rfl
    · exact Or.inr (List.mem_cons_of_mem b h)

theorem pickHigher_first (t : List NoteEvent) (a : NoteEvent) :
    (a :: t).find? (fun n => decide ((t.foldl pickHigher a).midi ≤ n.midi)) =
      some (t.foldl pickHigher a) := by
  induction t generalizing a with
  | nil =>
    rw [List.foldl_nil, List.find?_cons_of_pos _ (by simp)]
  | cons b t ih =>
    simp only [List.foldl_cons]
    by_cases hb : b.midi > a.midi
    · have hab : pickHigher a b = b := by unfold pickHigher; rw [if_pos hb]
      simp only [hab]
      have hr : b.midi ≤ (t.foldl pickHigher b).midi := pickHigher_midi_le t b
      rw [List.find?_cons_of_neg _ (by simp; omega)]
      exact ih b
    · have hab : pickHigher a b = a := by unfold pickHigher; rw [if_neg hb]
      simp only [hab]
      have h2 := ih a
      by_cases hra : (t.foldl pickHigher a).midi ≤ a.midi
      · rw [List.find?_cons_of_pos _ (by simp [hra])] at h2
        have hr_eq : t.foldl pickHigher a = a := (Option.some.inj h2).symm
        rw [List.find?_cons_of_pos _ (by simp [hra]), hr_eq]
      · push_neg at hb
        rw [List.find?_cons_of_neg _ (by simp [hra]),
          List.find?_cons_of_neg _ (by simp; omega)]
        rw [List.find?_cons_of_neg _ (by simp [hra])] at h2
        exact h2

theorem bestNote_props {l : List NoteEvent} {m : NoteEvent} (h : bestNote l = some m) :
    m ∈ l ∧ (∀ x ∈ l, x.midi ≤ m.midi) ∧
      l.find? (fun n => decide (m.midi ≤ n.midi)) = some m := by
  cases l with
  | nil => cases h
  | cons a t =>
    have hm : m = t.foldl pickHigher a := (Option.some.inj h).symm
    subst hm
    refine ⟨?_, ?_, pickHigher_first t a⟩
    · rcases pickHigher_mem t a with h' | h'
      · rw [h']; exact List.mem_cons_self a t
      · exact List.mem_cons_of_mem a h'
    · intro x hx
      rcases List.mem_cons.mp hx with rfl | hx
      · exact pickHigher_midi_le t x
      · exact pickHigher_max t a x hx

/-! ## Sorting lemmas -/

theorem insertByTime_perm (n : NoteEvent) (l : List NoteEvent) :
    (insertByTime n l).Perm (n :: l) := by
  induction l with
  | nil => exact List.Perm.refl _
  | cons m ms ih =>
    unfold insertByTime
    split
    · exact List.Perm.refl _
    · exact (ih.cons m).trans (List.Perm.swap n m ms)

theorem sortByTime_perm (notes : List NoteEvent) : (sortByTime notes).Perm notes := by
  suffices h : ∀ (l acc : List NoteEvent),
      (l.foldl (fun acc n => insertByTime n acc) acc).Perm (acc ++ l) by
    simpa using h notes []
  intro l
  induction l with
  | nil => intro acc; simp
  | cons n ls ih =>
    intro acc
    simp only [List.foldl_cons]
    refine (ih (insertByTime n acc)).trans ?_
    refine (List.Perm.append_right ls (insertByTime_perm n acc)).trans ?_
    exact List.perm_middle.symm

theorem insertKey_perm (k : ℤ) (l : List ℤ) : (insertKey k l).Perm (k :: l) := by
  induction l with
  | nil => exact List.Perm.refl _
  | cons j js ih =>
    unfold insertKey
    split
    · exact List.Perm.refl _
    · exact (ih.cons j).trans (List.Perm.swap k j js)

theorem mem_insertKey {x k : ℤ} {l : List ℤ} : x ∈ insertKey k l ↔ x = k ∨ x ∈ l := by
  rw [(insertKey_perm k l).mem_iff, List.mem_cons]

theorem insertKey_sorted (k : ℤ) {l : List ℤ} (h : l.Pairwise (· ≤ ·)) :
    (insertKey k l).Pairwise (· ≤ ·) := by
  induction l with
  | nil => simp [insertKey]
  | cons j js ih =>
    rw [List.pairwise_cons] at h
    unfold insertKey
    split
    · rename_i hkj
      refine List.pairwise_cons.mpr ⟨?_, List.pairwise_cons.mpr h⟩
      intro x hx
      rcases List.mem_cons.mp hx with rfl | hx
      · omega
      · have := h.1 x hx; omega
    · rename_i hkj
      refine List.pairwise_cons.mpr ⟨?_, ih h.2⟩
      intro x hx
      rcases mem_insertKey.mp hx with rfl | hx
      · omega
      · exact h.1 x hx

theorem sortKeys_sorted (l : List ℤ) : (sortKeys l).Pairwise (· ≤ ·) := by
  induction l with
  | nil => exact List.Pairwise.nil
  | cons k ks ih => exact insertKey_sorted k ih

theorem sortKeys_perm (l : List ℤ) : (sortKeys l).Perm l := by
  induction l with
  | nil => exact List.Perm.refl _
  | cons k ks ih => exact (insertKey_perm k (sortKeys ks)).trans (ih.cons k)

/-! ## Bucket and melody lemmas -/

theorem uniqueTimesOf_nodup (notes : List NoteEvent) : (uniqueTimesOf notes).Nodup :=
  (sortKeys_perm _).symm.nodup (List.nodup_dedup _)

theorem uniqueTimesOf_sorted_lt (notes : List NoteEvent) :
    (uniqueTimesOf notes).Pairwise (· < ·) := by
  have h1 := sortKeys_sorted (((sortByTime notes).map timeKey).dedup)
  have h2 : (uniqueTimesOf notes).Pairwise (· ≠ ·) := uniqueTimesOf_nodup notes
  exact (h1.and h2).imp (fun h => lt_of_le_of_ne h.1 h.2)

theorem mem_uniqueTimesOf {k : ℤ} {notes : List NoteEvent} :
    k ∈ uniqueTimesOf notes ↔ ∃ n ∈ notes, timeKey n = k := by
  unfold uniqueTimesOf
  rw [(sortKeys_perm _).mem_iff, List.mem_dedup, List.mem_map]
  simp only [(sortByTime_perm notes).mem_iff]

theorem mem_bucketOf {notes : List NoteEvent} {k : ℤ} {n : NoteEvent} :
    n ∈ bucketOf notes k ↔ n ∈ sortByTime notes ∧ timeKey n = k := by
  unfold bucketOf
  rw [List.mem_filter]
  simp

theorem bestNote_isSome_of_mem_uniqueTimes {notes : List NoteEvent} {k : ℤ}
    (h : k ∈ uniqueTimesOf notes) : (bestNote (bucketOf notes k)).isSome := by
  obtain ⟨n, hn, hk⟩ := mem_uniqueTimesOf.mp h
  have hmem : n ∈ bucketOf notes k :=
    mem_bucketOf.mpr ⟨(sortByTime_perm notes).mem_iff.mpr hn, hk⟩
  cases hb : bucketOf notes k with
  | nil => rw [hb] at hmem; cases hmem
  | cons a t => rfl

theorem mem_melodyNotes {notes : List NoteEvent} {m : NoteEvent} :
    m ∈ melodyNotes notes ↔
      ∃ k ∈ uniqueTimesOf notes, bestNote (bucketOf notes k) = some m := by
  unfold melodyNotes
  exact List.mem_filterMap

theorem timeKey_of_bestNote {notes : List NoteEvent} {k : ℤ} {m : NoteEvent}
    (h : bestNote (bucketOf notes k) = some m) : timeKey m = k ∧ m ∈ notes := by
  have hmem := (bestNote_props h).1
  rw [mem_bucketOf] at hmem
  exact ⟨hmem.2, (sortByTime_perm notes).mem_iff.mp hmem.1⟩

theorem time_lt_of_timeKey_lt {a b : NoteEvent} (h : timeKey a < timeKey b) :
    a.time < b.time := by
  rw [timeKey, timeKey, roundQ_eq, roundQ_eq, round_eq, round_eq] at h
  have h1 : ((⌊a.time * 1000 + 1 / 2⌋ : ℤ) : ℚ) + 1 ≤ ((⌊b.time * 1000 + 1 / 2⌋ : ℤ) : ℚ) := by
    exact_mod_cast Int.add_one_le_iff.mpr h
  have h2 := Int.lt_floor_add_one (a.time * 1000 + 1 / 2)
  have h3 := Int.floor_le (b.time * 1000 + 1 / 2)
  linarith

/-! ## Claim C1 -/

/-- C1: the Melody Reducer puts notes into one bucket exactly when their
onsets agree after rounding to the 1-millisecond tolerance granularity,
emits exactly one note per bucket, namely the maximum-pitch note with
ties broken in favor of the first note encountered in the scan (the
`find?` conjunct states that the emitted note is the first note of its
bucket carrying the maximal pitch), and the emitted sequence is strictly
increasing in onset time, hence time-ordered and strictly monophonic. -/
theorem C1_melody_reducer_monophonic (notes : List NoteEvent) :
    (melodyNotes notes).Pairwise (fun m1 m2 => m1.time < m2.time) ∧
    (melodyNotes notes).length = (uniqueTimesOf notes).length ∧
    (∀ m ∈ melodyNotes notes,
      m ∈ bucketOf notes (timeKey m) ∧
      (∀ n ∈ bucketOf notes (timeKey m), n.midi ≤ m.midi) ∧
      (bucketOf notes (timeKey m)).find? (fun n => decide (m.midi ≤ n.midi)) =
        some m) ∧
    (∀ n ∈ notes, ∃ m ∈ melodyNotes notes, timeKey m = timeKey n) := by
  refine ⟨?_, ?_, ?_, ?_⟩
  · unfold melodyNotes
    refine List.Pairwise.filterMap _ ?_ (uniqueTimesOf_sorted_lt notes)
    intro k k' hkk' m hm m' hm'
    have h1 := (timeKey_of_bestNote (Option.mem_def.mp hm)).1
    have h2 := (timeKey_of_bestNote (Option.mem_def.mp hm')).1
    exact time_lt_of_timeKey_lt (by rw [h1, h2]; exact hkk')
  · unfold melodyNotes
    exact length_filterMap_of_isSome _ _
      (fun k hk => bestNote_isSome_of_mem_uniqueTimes hk)
  · intro m hm
    obtain ⟨k, hk, hbest⟩ := mem_melodyNotes.mp hm
    obtain ⟨hkey, -⟩ := timeKey_of_bestNote hbest
    subst hkey
    obtain ⟨h1, h2, h3⟩ := bestNote_props hbest
    exact ⟨h1, h2, h3⟩
  · intro n hn
    have hk : timeKey n ∈ uniqueTimesOf notes := mem_uniqueTimesOf.mpr ⟨n, hn, rfl⟩
    have hs := bestNote_isSome_of_mem_uniqueTimes hk
    obtain ⟨m, hm⟩ := Option.isSome_iff_exists.mp hs
    exact ⟨m, mem_melodyNotes.mpr ⟨timeKey n, hk, hm⟩, (timeKey_of_bestNote hm).1⟩

/-- Witness for C1: on the chord track, the higher-pitch chord note is
emitted, it dominates its bucket, it is the first maximal note of the
bucket, and the output is strictly time-ordered. -/
theorem C1_witness :
    n3Ex ∈ melodyNotes trackChordEx.notes ∧
    n3Ex ∈ bucketOf trackChordEx.notes (timeKey n3Ex) ∧
    n1Ex.midi ≤ n3Ex.midi ∧
    (bucketOf trackChordEx.notes (timeKey n3Ex)).find?
      (fun n => decide (n3Ex.midi ≤ n.midi)) = some n3Ex ∧
    (melodyNotes trackChordEx.notes).Pairwise (fun m1 m2 => m1.time < m2.time) := by
  have h := C1_melody_reducer_monophonic trackChordEx.notes
  have hmem : n3Ex ∈ melodyNotes trackChordEx.notes := by decide
  obtain ⟨h1, h2, h3⟩ := h.2.2.1 n3Ex hmem
  exact ⟨hmem, h1, h2 n1Ex (by decide), h3, h.1⟩

/-! ## Claim C2 -/

/-- C2: for every melody note the block loop emits a bounce factor of
`round2(base_bounce * ratio)` with `ratio = duration_to_next / (60/bpm)`,
where `duration_to_next` is the gap to the next onset when a next note
exists and the note's own duration for the final note, and the next
block's x position is the current cursor advanced by
`base_spacing * ratio`; on the two-note 120 BPM example track with the
reference calibration this yields a first object at x = 191 with bounce
factor 5.94 and a second object at x = 254.44. -/
theorem C2_timing_to_physics (cfg : MusicCfg) (spq curX : ℚ) :
    (∀ note : NoteEvent,
      musicLoop cfg spq [note] curX =
        ([GenObj.musicBlock (round2 curX) cfg.startY note.name cfg.instrumentType
            (round2 (cfg.baseBf * (note.duration / spq))) cfg.blockScale],
          curX + cfg.baseSpacing * (note.duration / spq))) ∧
    (∀ (note next : NoteEvent) (rest : List NoteEvent),
      musicLoop cfg spq (note :: next :: rest) curX =
        (GenObj.musicBlock (round2 curX) cfg.startY note.name cfg.instrumentType
            (round2 (cfg.baseBf * ((next.time - note.time) / spq))) cfg.blockScale ::
          (musicLoop cfg spq (next :: rest)
            (curX + cfg.baseSpacing * ((next.time - note.time) / spq))).1,
          (musicLoop cfg spq (next :: rest)
            (curX + cfg.baseSpacing * ((next.time - note.time) / spq))).2)) ∧
    (generateLevel cfgEx [120] none [trackEx] 0).map (fun d => d.genericObjects) =
      .ok [GenObj.musicBlock 191 331 "C4" "piano" (297 / 50) (1 / 2),
        GenObj.musicBlock (6361 / 25) 331 "D4" "piano" (297 / 50) (1 / 2),
        GenObj.tinyMushroom 114 298 1] := by
  refine ⟨fun note => rfl, fun note next rest => rfl, by decide⟩

/-! ## Claim C7 -/

/-- C7: with a validly selected track, the conversion fails with
`EmptyTrack` exactly when the track has zero notes, and in that case no
document (hence no placement object) is produced. -/
theorem C7_empty_track_iff (cfg : MusicCfg) (tempos : List ℚ)
    (fileName : Option String) (tracks : List Track) (idx : ℕ) (t : Track)
    (h : tracks[idx]? = some t) :
    (generateLevel cfg tempos fileName tracks idx = .error .emptyTrack ↔
      t.notes = []) ∧
    (t.notes = [] → ∀ d, generateLevel cfg tempos fileName tracks idx ≠ .ok d) := by
  simp only [generateLevel, h]
  by_cases hn : t.notes = []
  · rw [if_pos hn]
    exact ⟨⟨fun _ => hn, fun _ => rfl⟩, fun _ d hd => Except.noConfusion hd⟩
  · rw [if_neg hn]
    exact ⟨⟨fun he => Except.noConfusion he, fun hc => absurd hc hn⟩,
      fun hc => absurd hc hn⟩

/-- Witness for C7: the empty track aborts with the error, the two-note
track does not. -/
theorem C7_witness :
    generateLevel cfgEx [120] none [emptyTrackEx] 0 = .error .emptyTrack ∧
    generateLevel cfgEx [120] none [trackEx] 0 ≠ .error .emptyTrack := by
  refine ⟨(C7_empty_track_iff cfgEx [120] none [emptyTrackEx] 0 emptyTrackEx
    rfl).1.mpr rfl, fun he => ?_⟩
  exact absurd ((C7_empty_track_iff cfgEx [120] none [trackEx] 0 trackEx
    rfl).1.mp he) (by decide)

/-! ## Raster scan helper lemmas -/

theorem mem_imageObjects {cfg : ImageCfg} {width height : ℕ} {pix : ℕ → ℕ → RGBA}
    {o : GenObj} :
    o ∈ imageObjects cfg width height pix ↔
      ∃ x y, x < width ∧ y < height ∧ (pix x y).a ≠ 0 ∧
        o = GenObj.colorBlock (cfg.offsetX + x * pixelSpacing cfg.sValue)
          (cfg.offsetY + y * pixelSpacing cfg.sValue)
          (hexColor (pix x y).r (pix x y).g (pix x y).b) cfg.sValue := by
  unfold imageObjects
  simp only [List.mem_flatMap, List.mem_filterMap, List.mem_range]
  constructor
  · rintro ⟨y, hy, x, hx, hfx⟩
    by_cases ha : (pix x y).a = 0
    · rw [if_pos ha] at hfx; cases hfx
    · rw [if_neg ha] at hfx
      exact ⟨x, y, hx, hy, ha, (Option.some.inj hfx).symm⟩
  · rintro ⟨x, y, hx, hy, ha, rfl⟩
    exact ⟨y, hy, x, hx, by rw [if_neg ha]⟩

theorem length_filterMap_skip {β : Type} (f : ℕ → β) (c : ℕ → Prop) [DecidablePred c]
    (w : ℕ) :
    ((List.range w).filterMap (fun x => if c x then none else some (f x))).length =
      ∑ x ∈ Finset.range w, if c x then 0 else 1 := by
  induction w with
  | zero => rfl
  | succ w ih =>
    rw [List.range_succ, List.filterMap_append, List.length_append, ih,
      Finset.sum_range_succ]
    congr 1
    simp only [List.filterMap_cons, List.filterMap_nil]
    by_cases hc : c w
    · rw [if_pos hc, if_pos hc]; rfl
    · rw [if_neg hc, if_neg hc]; rfl

theorem imageObjects_length (cfg : ImageCfg) (width height : ℕ)
    (pix : ℕ → ℕ → RGBA) :
    (imageObjects cfg width height pix).length =
      ∑ y ∈ Finset.range height, ∑ x ∈ Finset.range width,
        if (pix x y).a = 0 then 0 else 1 := by
  unfold imageObjects
  induction height with
  | zero => rfl
  | succ h ih =>
    rw [List.range_succ, List.flatMap_append, List.length_append, ih,
      Finset.sum_range_succ]
    congr 1
    simp only [List.flatMap_cons, List.flatMap_nil, List.append_nil]
    exact length_filterMap_skip _ _ width

theorem imageObjects_length_card (cfg : ImageCfg) (width height : ℕ)
    (pix : ℕ → ℕ → RGBA) :
    (imageObjects cfg width height pix).length =
      ((Finset.range height ×ˢ Finset.range width).filter
        (fun p => (pix p.2 p.1).a ≠ 0)).card := by
  rw [imageObjects_length, Finset.card_filter, Finset.sum_product]
  refine Finset.sum_congr rfl fun y _ => Finset.sum_congr rfl fun x _ => ?_
  by_cases ha : (pix x y).a = 0
  · rw [if_pos ha, if_neg (by simpa using ha)]
  · rw [if_neg ha, if_pos (by simpa using ha)]

/-! ## Claim C5 -/

/-- C5: the raster mapper skips a sample exactly when its alpha is 0,
emits one color block per surviving sample at
`(start_x + x * pixel_spacing, start_y + y * pixel_spacing)` whose color
string is built from two zero-padded lowercase hex digits per channel,
and the output length equals the cardinality of the set of alpha-positive
samples (a quantity independent of any scan order). -/
theorem C5_raster_mapper (cfg : ImageCfg) (width height : ℕ)
    (pix : ℕ → ℕ → RGBA) :
    (imageObjects cfg width height pix).length =
      ((Finset.range height ×ˢ Finset.range width).filter
        (fun p => (pix p.2 p.1).a ≠ 0)).card ∧
    (∀ o, o ∈ imageObjects cfg width height pix ↔
      ∃ x y, x < width ∧ y < height ∧ (pix x y).a ≠ 0 ∧
        o = GenObj.colorBlock (cfg.offsetX + x * pixelSpacing cfg.sValue)
          (cfg.offsetY + y * pixelSpacing cfg.sValue)
          (hexColor (pix x y).r (pix x y).g (pix x y).b) cfg.sValue) ∧
    (∀ n < 256, (hex2 n).length = 2 ∧ (hex2 n).data.all isLowerHexDigit = true) ∧
    (∀ r g b : ℕ, hexColor r g b = "#" ++ hex2 r ++ hex2 g ++ hex2 b) := by
  exact ⟨imageObjects_length_card cfg width height pix,
    fun o => mem_imageObjects,
    by decide,
    fun r g b => rfl⟩

/-- Witness for C5: on the opaque 1-by-1 red raster the count matches,
the red block is emitted, and the red channel formats to two lowercase
hex digits. -/
theorem C5_witness :
    (imageObjects icfgEx 1 1 pixEx).length =
      ((Finset.range 1 ×ˢ Finset.range 1).filter
        (fun p => (pixEx p.2 p.1).a ≠ 0)).card ∧
    GenObj.colorBlock 200 300 "#ff0000" (-(1 / 10)) ∈ imageObjects icfgEx 1 1 pixEx ∧
    (hex2 255).length = 2 ∧ (hex2 255).data.all isLowerHexDigit = true := by
  have h := C5_raster_mapper icfgEx 1 1 pixEx
  have h255 := h.2.2.1 255 (by decide)
  refine ⟨h.1, ?_, h255.1, h255.2⟩
  exact (h.2.1 _).mpr ⟨0, 0, by decide, by decide, by decide, by decide⟩

/-! ## Claim C6 -/

/-- C6: the pixel spacing function yields exactly 4 at block scale -0.1
and is invariant under negating the scale parameter: only the magnitude
of the scale matters. -/
theorem C6_pixel_spacing (s : ℚ) :
    pixelSpacing (-(1 / 10)) = 4 ∧ pixelSpacing s = pixelSpacing (-s) := by
  constructor
  · decide
  · unfold pixelSpacing
    rw [neg_div, mul_neg, abs_neg]

/-! ## Claim C10 -/

/-- C10: two rasters of equal dimensions agreeing on the RGB channels and
on whether each sample's alpha is zero produce identical documents: the
magnitude of a positive alpha never influences the output. -/
theorem C10_alpha_noninterference (cfg : ImageCfg) (width height : ℕ)
    (pix1 pix2 : ℕ → ℕ → RGBA)
    (h : ∀ x < width, ∀ y < height,
      (pix1 x y).r = (pix2 x y).r ∧ (pix1 x y).g = (pix2 x y).g ∧
      (pix1 x y).b = (pix2 x y).b ∧ ((pix1 x y).a = 0 ↔ (pix2 x y).a = 0)) :
    generateJson cfg width height pix1 = generateJson cfg width height pix2 := by
  have himg : imageObjects cfg width height pix1 = imageObjects cfg width height pix2 := by
    unfold imageObjects
    refine flatMap_congrOn fun y hy => filterMap_congrOn fun x hx => ?_
    rw [List.mem_range] at hy hx
    obtain ⟨hr, hg, hb, ha⟩ := h x hx y hy
    by_cases h0 : (pix1 x y).a = 0
    · rw [if_pos h0, if_pos (ha.mp h0)]
    · rw [if_neg h0, if_neg (fun hc => h0 (ha.mpr hc)), hr, hg, hb]
  unfold generateJson
  rw [himg]

/-- Witness for C10: the fully opaque raster and the raster with alpha 7
everywhere yield the same document. -/
theorem C10_witness :
    generateJson icfgEx 2 2 pixEx = generateJson icfgEx 2 2 pixEx2 := by
  refine C10_alpha_noninterference icfgEx 2 2 pixEx pixEx2 ?_
  intro x _ y _
  simp [pixEx, pixEx2]

/-! ## Music pipeline helper lemmas -/

theorem musicLoop_nil (cfg : MusicCfg) (spq curX : ℚ) :
    musicLoop cfg spq [] curX = ([], curX) := rfl

theorem musicLoop_single (cfg : MusicCfg) (spq curX : ℚ) (n : NoteEvent) :
    musicLoop cfg spq [n] curX =
      ([GenObj.musicBlock (round2 curX) cfg.startY n.name cfg.instrumentType
          (round2 (cfg.baseBf * (n.duration / spq))) cfg.blockScale],
        curX + cfg.baseSpacing * (n.duration / spq)) := rfl

theorem musicLoop_cons₂ (cfg : MusicCfg) (spq curX : ℚ) (n next : NoteEvent)
    (rest : List NoteEvent) :
    musicLoop cfg spq (n :: next :: rest) curX =
      (GenObj.musicBlock (round2 curX) cfg.startY n.name cfg.instrumentType
          (round2 (cfg.baseBf * ((next.time - n.time) / spq))) cfg.blockScale ::
        (musicLoop cfg spq (next :: rest)
          (curX + cfg.baseSpacing * ((next.time - n.time) / spq))).1,
        (musicLoop cfg spq (next :: rest)
          (curX + cfg.baseSpacing * ((next.time - n.time) / spq))).2) := rfl

theorem musicLoop_finalX (cfg : MusicCfg) (spq : ℚ) :
    ∀ (notes : List NoteEvent) (curX : ℚ),
      (musicLoop cfg spq notes curX).2 =
        curX + cfg.baseSpacing * (ratiosOf spq notes).sum
  | [], curX => by simp [musicLoop_nil, ratiosOf]
  | [n], curX => by simp [musicLoop_single, ratiosOf]
  | n :: next :: rest, curX => by
    have ih := musicLoop_finalX cfg spq (next :: rest)
      (curX + cfg.baseSpacing * ((next.time - n.time) / spq))
    rw [musicLoop_cons₂]
    show (musicLoop cfg spq (next :: rest)
      (curX + cfg.baseSpacing * ((next.time - n.time) / spq))).2 = _
    rw [ih]
    show _ = curX + cfg.baseSpacing *
      ((next.time - n.time) / spq + (ratiosOf spq (next :: rest)).sum)
    ring

theorem musicLoop_mem (cfg : MusicCfg) (spq : ℚ) :
    ∀ (notes : List NoteEvent) (curX : ℚ) (b : GenObj),
      b ∈ (musicLoop cfg spq notes curX).1 →
      ∃ x bf nm, b = GenObj.musicBlock (round2 x) cfg.startY nm
        cfg.instrumentType (round2 bf) cfg.blockScale
  | [], curX, b => by
    intro hb
    rw [musicLoop_nil] at hb
    cases hb
  | [n], curX, b => by
    intro hb
    rw [musicLoop_single] at hb
    rw [List.mem_singleton] at hb
    exact ⟨curX, cfg.baseBf * (n.duration / spq), n.name, hb⟩
  | n :: next :: rest, curX, b => by
    intro hb
    rw [musicLoop_cons₂] at hb
    rcases List.mem_cons.mp hb with rfl | hb'
    · exact ⟨curX, cfg.baseBf * ((next.time - n.time) / spq), n.name, rfl⟩
    · exact musicLoop_mem cfg spq (next :: rest) _ b hb'

theorem roundQ_intCast (k : ℤ) : roundQ (k : ℚ) = k := by
  rw [roundQ_eq, round_intCast]

theorem round2_idem (q : ℚ) : round2 (round2 q) = round2 q := by
  unfold round2
  rw [div_mul_cancel₀ _ (by norm_num : (100 : ℚ) ≠ 0), roundQ_intCast]

theorem generateLevel_ok_eq {cfg : MusicCfg} {tempos : List ℚ}
    {fileName : Option String} {tracks : List Track} {idx : ℕ} {d : MusicLevel}
    (hd : generateLevel cfg tempos fileName tracks idx = .ok d) :
    ∃ t, tracks[idx]? = some t ∧ t.notes ≠ [] ∧
      d = { name := levelName fileName
            description := "Generated from MIDI"
            version := 1.702
            scrollSpeed := 2.4
            gravity := 0.4
            antigravity := false
            yTrack := true
            gradientTopColor := "#009dff"
            gradientBottomColor := "#c2ccff"
            disableBackgroundMusic := false
            restartOnDeath := false
            volume := 100
            birdStartX := 100
            birdStartY := 300
            pipes := []
            bullets := []
            bulletTriggers := []
            currentLayer := 1
            maxLayers := 3
            genericObjects := (musicLoop cfg (60 / bpmOf tempos)
              (melodyNotes t.notes) cfg.startX).1 ++ [GenObj.tinyMushroom 114 298 1]
            finishLineX := ceilQ ((musicLoop cfg (60 / bpmOf tempos)
              (melodyNotes t.notes) cfg.startX).2 + 200)
            completionRequirement := "crossFinishLine" } := by
  unfold generateLevel at hd
  split at hd
  · cases hd
  · rename_i t htr
    split at hd
    · cases hd
    · rename_i hn
      exact ⟨t, htr, hn, (Except.ok.inj hd).symm⟩

/-! ## Claim C3 -/

/-- C3 as stated fails on the code: on the two-note example the music
document's finish line is 518, computed from the cursor after the final
advance past the last block, while `ceil(max x over all placement objects
+ 200)` would be 455. -/
theorem C3_counterexample :
    (generateLevel cfgEx [120] none [trackEx] 0).map (fun d => d.finishLineX) =
      .ok 518 ∧
    (generateLevel cfgEx [120] none [trackEx] 0).map
      (fun d => ceilQ (maxXOf d.genericObjects + 200)) = .ok 455 ∧
    (518 : ℤ) ≠ 455 := ⟨by decide, by decide, by decide⟩

/-- C3 amended: in music mode `finish_x = ceil(final_cursor + 200)`, where
the final cursor is the start x plus every `base_spacing * ratio` advance
(one advance more than the rightmost block's x), not the maximum object x;
in image mode `finish_x` is unconditionally the constant 1559; each policy
is hard-wired into its converter rather than selected by a configuration
option. -/
theorem C3_finish_line :
    (∀ (cfg : MusicCfg) (tempos : List ℚ) (fileName : Option String)
        (tracks : List Track) (idx : ℕ) (t : Track) (d : MusicLevel),
      tracks[idx]? = some t →
      generateLevel cfg tempos fileName tracks idx = .ok d →
      d.finishLineX =
        ceilQ (specFinalX cfg (60 / bpmOf tempos) (melodyNotes t.notes) + 200)) ∧
    (∀ (cfg : ImageCfg) (width height : ℕ) (pix : ℕ → ℕ → RGBA),
      (generateJson cfg width height pix).finishLineX = 1559) := by
  constructor
  · intro cfg tempos fileName tracks idx t d htr hd
    obtain ⟨t', htr', hn, rfl⟩ := generateLevel_ok_eq hd
    rw [htr] at htr'
    obtain rfl := Option.some.inj htr'
    rw [musicLoop_finalX]
    rfl
  · intro cfg width height pix
    rfl

/-- Witness for C3's amended statement on the concrete two-note track and
a one-pixel raster. -/
theorem C3_witness :
    musicDocEx.finishLineX =
      ceilQ (specFinalX cfgEx (60 / bpmOf [120]) (melodyNotes trackEx.notes) + 200) ∧
    (generateJson icfgEx 1 1 pixEx).finishLineX = 1559 :=
  ⟨C3_finish_line.1 cfgEx [120] none [trackEx] 0 trackEx musicDocEx rfl (by decide),
    C3_finish_line.2 icfgEx 1 1 pixEx⟩

/-! ## Claim C4 -/

/-- C4 as stated fails on the code: the image converter appends no
terminal marker object at all; for a one-pixel raster the object list is
exactly the single color block and contains no mushroom. -/
theorem C4_counterexample :
    (generateJson icfgEx 1 1 pixEx).genericObjects =
      [GenObj.colorBlock 200 300 "#ff0000" (-(1 / 10))] ∧
    (generateJson icfgEx 1 1 pixEx).genericObjects.all
      (fun o => !o.isMushroom) = true := ⟨by decide, by decide⟩

/-- C4 amended: the MUSIC converter appends the decorative mushroom
marker unconditionally as the last placement object of every successful
conversion, while the image converter appends no marker: all of its
placement objects are color blocks. -/
theorem C4_terminal_marker :
    (∀ (cfg : MusicCfg) (tempos : List ℚ) (fileName : Option String)
        (tracks : List Track) (idx : ℕ) (d : MusicLevel),
      generateLevel cfg tempos fileName tracks idx = .ok d →
      d.genericObjects.getLast? = some (GenObj.tinyMushroom 114 298 1)) ∧
    (∀ (cfg : ImageCfg) (width height : ℕ) (pix : ℕ → ℕ → RGBA) (o : GenObj),
      o ∈ (generateJson cfg width height pix).genericObjects →
      o.isColorBlock = true) := by
  constructor
  · intro cfg tempos fileName tracks idx d hd
    obtain ⟨t, htr, hn, rfl⟩ := generateLevel_ok_eq hd
    exact List.getLast?_concat _
  · intro cfg width height pix o ho
    obtain ⟨x, y, _, _, _, rfl⟩ := mem_imageObjects.mp ho
    rfl

/-- Witness for C4's amended statement. -/
theorem C4_witness :
    musicDocEx.genericObjects.getLast? = some (GenObj.tinyMushroom 114 298 1) ∧
    (GenObj.colorBlock 200 300 "#ff0000" (-(1 / 10))).isColorBlock = true :=
  ⟨C4_terminal_marker.1 cfgEx [120] none [trackEx] 0 musicDocEx (by decide),
    C4_terminal_marker.2 icfgEx 1 1 pixEx
      (GenObj.colorBlock 200 300 "#ff0000" (-(1 / 10))) (by decide)⟩

/-! ## Claim C8 -/

/-- C8 as stated fails on the code: the image converter emits raw
coordinates; with a typed-in start x of 200.005 the emitted x is 200.005,
which is not equal to its own 2-decimal rounding. -/
theorem C8_counterexample :
    (generateJson icfgFineEx 1 1 pixEx).genericObjects =
      [GenObj.colorBlock (40001 / 200) 300 "#ff0000" (-(1 / 10))] ∧
    round2 (40001 / 200) ≠ 40001 / 200 := ⟨by decide, by decide⟩

/-- C8 amended: only the music converter's x coordinate is rounded to two
decimals at emission; the music y is the raw configured start y, and the
image converter's coordinates are the raw affine values
`offset + index * pixel_spacing`, emitted without rounding. -/
theorem C8_rounding_at_emission :
    (∀ (cfg : MusicCfg) (spq curX : ℚ) (notes : List NoteEvent) (b : GenObj),
      b ∈ (musicLoop cfg spq notes curX).1 →
      round2 b.xPos = b.xPos ∧ b.yPos = cfg.startY) ∧
    (∀ (cfg : ImageCfg) (width height : ℕ) (pix : ℕ → ℕ → RGBA) (o : GenObj),
      o ∈ imageObjects cfg width height pix →
      ∃ i j : ℕ, i < width ∧ j < height ∧
        o.xPos = cfg.offsetX + i * pixelSpacing cfg.sValue ∧
        o.yPos = cfg.offsetY + j * pixelSpacing cfg.sValue) := by
  constructor
  · intro cfg spq curX notes b hb
    obtain ⟨x, bf, nm, rfl⟩ := musicLoop_mem cfg spq notes curX b hb
    exact ⟨round2_idem x, rfl⟩
  · intro cfg width height pix o ho
    obtain ⟨x, y, hx, hy, _, rfl⟩ := mem_imageObjects.mp ho
    exact ⟨x, y, hx, hy, rfl, rfl⟩

/-- Witness for C8's amended statement on concrete emitted blocks. -/
theorem C8_witness :
    round2 (GenObj.musicBlock 191 331 "C4" "piano" (297 / 50) (1 / 2)).xPos =
      (GenObj.musicBlock 191 331 "C4" "piano" (297 / 50) (1 / 2)).xPos ∧
    (GenObj.musicBlock 191 331 "C4" "piano" (297 / 50) (1 / 2)).yPos =
      cfgEx.startY ∧
    ∃ i j : ℕ, i < 1 ∧ j < 1 ∧
      (GenObj.colorBlock 200 300 "#ff0000" (-(1 / 10))).xPos =
        icfgEx.offsetX + i * pixelSpacing icfgEx.sValue ∧
      (GenObj.colorBlock 200 300 "#ff0000" (-(1 / 10))).yPos =
        icfgEx.offsetY + j * pixelSpacing icfgEx.sValue := by
  have h1 := C8_rounding_at_emission.1 cfgEx (1 / 2) 191 (melodyNotes trackEx.notes)
    (GenObj.musicBlock 191 331 "C4" "piano" (297 / 50) (1 / 2)) (by decide)
  have h2 := C8_rounding_at_emission.2 icfgEx 1 1 pixEx
    (GenObj.colorBlock 200 300 "#ff0000" (-(1 / 10))) (by decide)
  exact ⟨h1.1, h1.2, h2⟩

/-! ## Claim C9 -/

/-- C9 as stated fails on the code: the document defaults are not
reproduced identically by the two converters — the description is
"Generated from MIDI" against the empty string, the vertical-tracking
toggle is true against false, and the music document's name is derived
from the input file name. -/
theorem C9_counterexample :
    (generateLevel cfgEx [120] (some "tune.mid") [trackEx] 0).map
      (fun d => (d.description, d.yTrack, d.name)) =
      .ok ("Generated from MIDI", true, "tune") ∧
    ((generateJson icfgEx 1 1 pixEx).description,
      (generateJson icfgEx 1 1 pixEx).yTrack,
      (generateJson icfgEx 1 1 pixEx).name) = ("", false, "My Custom Level") ∧
    ("Generated from MIDI" : String) ≠ "" ∧
    (true : Bool) ≠ false := ⟨by decide, by decide, by decide, by decide⟩

/-- C9 amended: every document-level field other than the object list and
`finish_x` is a constant independent of the input media, except that the
music document's name is derived from the input file name; the shared
constants agree between the two converters except `description`
("Generated from MIDI" against "") and `yTrack` (true against false), and
the image document carries four extra fields (`propelFlap`,
`propelFlapForceX`, `propelFlapForceY`, `floor`) with constant values. -/
theorem C9_document_defaults :
    (∀ (cfg : MusicCfg) (tempos : List ℚ) (fileName : Option String)
        (tracks : List Track) (idx : ℕ) (d : MusicLevel),
      generateLevel cfg tempos fileName tracks idx = .ok d →
      d.description = "Generated from MIDI" ∧ d.version = 1.702 ∧
      d.scrollSpeed = 2.4 ∧ d.gravity = 0.4 ∧ d.antigravity = false ∧
      d.yTrack = true ∧ d.gradientTopColor = "#009dff" ∧
      d.gradientBottomColor = "#c2ccff" ∧ d.disableBackgroundMusic = false ∧
      d.restartOnDeath = false ∧ d.volume = 100 ∧ d.birdStartX = 100 ∧
      d.birdStartY = 300 ∧ d.pipes = [] ∧ d.bullets = [] ∧
      d.bulletTriggers = [] ∧ d.currentLayer = 1 ∧ d.maxLayers = 3 ∧
      d.completionRequirement = "crossFinishLine" ∧
      d.name = levelName fileName) ∧
    (∀ (cfg : ImageCfg) (width height : ℕ) (pix : ℕ → ℕ → RGBA),
      (generateJson cfg width height pix).description = "" ∧
      (generateJson cfg width height pix).version = 1.702 ∧
      (generateJson cfg width height pix).scrollSpeed = 2.4 ∧
      (generateJson cfg width height pix).gravity = 0.4 ∧
      (generateJson cfg width height pix).antigravity = false ∧
      (generateJson cfg width height pix).yTrack = false ∧
      (generateJson cfg width height pix).gradientTopColor = "#009dff" ∧
      (generateJson cfg width height pix).gradientBottomColor = "#c2ccff" ∧
      (generateJson cfg width height pix).disableBackgroundMusic = false ∧
      (generateJson cfg width height pix).restartOnDeath = false ∧
      (generateJson cfg width height pix).volume = 100 ∧
      (generateJson cfg width height pix).birdStartX = 100 ∧
      (generateJson cfg width height pix).birdStartY = 300 ∧
      (generateJson cfg width height pix).pipes = [] ∧
      (generateJson cfg width height pix).bullets = [] ∧
      (generateJson cfg width height pix).bulletTriggers = [] ∧
      (generateJson cfg width height pix).currentLayer = 1 ∧
      (generateJson cfg width height pix).maxLayers = 3 ∧
      (generateJson cfg width height pix).completionRequirement = "crossFinishLine" ∧
      (generateJson cfg width height pix).name = "My Custom Level" ∧
      (generateJson cfg width height pix).propelFlap = false ∧
      (generateJson cfg width height pix).propelFlapForceX = 8 ∧
      (generateJson cfg width height pix).propelFlapForceY = -8 ∧
      (generateJson cfg width height pix).floor = false) := by
  constructor
  · intro cfg tempos fileName tracks idx d hd
    obtain ⟨t, htr, hn, rfl⟩ := generateLevel_ok_eq hd
    exact ⟨rfl, rfl, rfl, rfl, rfl, rfl, rfl, rfl, rfl, rfl, rfl, rfl, rfl,
      rfl, rfl, rfl, rfl, rfl, rfl, rfl⟩
  · intro cfg width height pix
    exact ⟨rfl, rfl, rfl, rfl, rfl, rfl, rfl, rfl, rfl, rfl, rfl, rfl, rfl,
      rfl, rfl, rfl, rfl, rfl, rfl, rfl, rfl, rfl, rfl, rfl⟩

/-- Witness for C9's amended statement on the concrete inputs. -/
theorem C9_witness :
    musicDocEx.yTrack = true ∧ musicDocEx.version = 1.702 ∧
    musicDocEx.description = "Generated from MIDI" ∧
    (generateJson icfgEx 1 1 pixEx).yTrack = false ∧
    (generateJson icfgEx 1 1 pixEx).version = 1.702 ∧
    (generateJson icfgEx 1 1 pixEx).description = "" := by
  obtain ⟨hdsc, hver, -, -, -, hyt, hrest⟩ :=
    C9_document_defaults.1 cfgEx [120] none [trackEx] 0 musicDocEx (by decide)
  obtain ⟨hdsc2, hver2, -, -, -, hyt2, hrest2⟩ :=
    C9_document_defaults.2 icfgEx 1 1 pixEx
  exact ⟨hyt, hver, hdsc, hyt2, hver2, hdsc2⟩
